import Mathlib

/-!
Shallow embedding of the voice-enabled chat interaction controller of the
Uber-Copilot frontend (the `ChatPage` component with voice support and the
`VoiceInput` component), together with the parts of its environment the
specification talks about: the remote assistant API outcome, the speech
synthesis engine command stream, and the speech recognition engine event
stream.

State updates of the React component are modelled as explicit state
passing over a `ChatState` record; asynchronous completions (network
response, engine events) are passed in as explicit inputs.
-/

namespace UberCopilot

/-- Sender is the `message.type` field: `'user' | 'bot'`. -/
inductive Sender
  | user
  | bot
  deriving Repr, DecidableEq

/-- A `messages` array entry of `ChatPage`.  `id` is the `Date.now()`
value (or `Date.now() + 1` for replies) as a natural number; `timestamp`
is dropped (never read by the logic); `earnerInsights` is the opaque
insights payload passed through verbatim. -/
structure Message where
  id : Nat
  sender : Sender
  content : String
  isError : Bool
  earnerInsights : Option String
  deriving Repr, DecidableEq

/-- Commands issued to the platform speech synthesis engine
(`window.speechSynthesis.cancel()` / `window.speechSynthesis.speak(u)`). -/
inductive SynthCmd
  | cancel
  | speak (text : String)
  deriving Repr, DecidableEq

/-- Commands issued to the platform speech recognition engine
(`recognition.start()` / `recognition.stop()`). -/
inductive RecCmd
  | start
  | stop
  deriving Repr, DecidableEq

/-- The `useState` fields of the voice-enabled `ChatPage` component that
the chat logic reads or writes. -/
structure ChatState where
  messages : List Message
  inputMessage : String
  isLoading : Bool
  isListening : Bool
  isSpeaking : Bool
  voiceOutputEnabled : Bool
  deriving Repr, DecidableEq

/-- Outcome of `chatAPI.sendMessage`: either the parsed response body
(`response.response`, `response.earner_insights`) or a thrown error
(network failure, non-2xx status, timeout — all surfaced as a rejection
by axios and rethrown by `chatAPI.sendMessage`). -/
inductive ApiResult
  | ok (response : String) (insights : Option String)
  | err
  deriving Repr, DecidableEq

/-- The character class stripped by `speakResponse`
(`text.replace(/[...]/g, c)` with an empty replacement), at Unicode
scalar level; the map emoji keycap carries a variation selector. -/
def emojiStripList : List Char :=
  ['📊', '🚀', '💡', '🎯', '⭐', '✅', '❌', '🔴', '🎤', '🗺', '️', '📍']

/-- Sanitization `const cleanText = text.replace(/[...]/g, c)` with an
empty replacement string `c`, over the class in `emojiStripList`. -/
def cleanText (text : String) : String :=
  ⟨text.data.filter (fun ch => ¬ emojiStripList.contains ch)⟩

/-- Handler `speakResponse(text)`: always cancels any ongoing speech first, then,
only if voice output is enabled, hands the sanitized text to the engine.
The function mutates none of the component state synchronously
(`isSpeaking` is only changed by the utterance `onstart`/`onend`/`onerror`
events); its result is the command stream sent to the engine. -/
def speakResponse (s : ChatState) (text : String) : List SynthCmd :=
  SynthCmd.cancel :: (if s.voiceOutputEnabled then [SynthCmd.speak (cleanText text)] else [])

/-- JavaScript `String.prototype.trim()`: strips leading and trailing
whitespace (written structurally so that it evaluates by `rfl`). -/
def jsTrim (s : String) : String :=
  ⟨((s.data.dropWhile Char.isWhitespace).reverse.dropWhile
      Char.isWhitespace).reverse⟩

/-- The fixed apology appended on a failed dispatch. -/
def apologyText : String :=
  "Sorry, I'm having trouble connecting right now. Please try again in a moment."

/-- The optimistic user message built by `handleSendMessage`
(`{ id: timestamp, type: 'user', content: messageText, ... }`). -/
def mkUserMessage (text : String) (ts : Nat) : Message :=
  ⟨ts, Sender.user, text, false, none⟩

/-- The state right after `handleSendMessage` passes its gate: the user
message is appended, the composed buffer is cleared and `isLoading` set —
this is the state in which the component awaits the network response. -/
def sendBegin (s : ChatState) (message : String) (ts : Nat) : ChatState :=
  { s with
      messages := s.messages ++ [mkUserMessage (jsTrim message) ts]
      inputMessage := ""
      isLoading := true }

/-- Resolution of an in-flight dispatch (`try`/`catch`/`finally` body of
`handleSendMessage` after the `await`): on success the bot message (with
`id: timestamp + 1` and the insights payload) is appended and
`speakResponse(response.response)` is invoked; on failure the fixed
error message is appended instead and nothing is spoken.  `finally`
clears `isLoading` on both paths.  Returns the new state, the commands
sent to the synthesis engine, and the list of `speakResponse` call
arguments. -/
def sendResolve (s : ChatState) (ts : Nat) (api : ApiResult) :
    ChatState × List SynthCmd × List String :=
  match api with
  | ApiResult.ok resp ins =>
      (⟨s.messages ++ [⟨ts + 1, Sender.bot, resp, false, ins⟩],
        s.inputMessage, false, s.isListening, s.isSpeaking, s.voiceOutputEnabled⟩,
       speakResponse s resp, [resp])
  | ApiResult.err =>
      (⟨s.messages ++ [⟨ts + 1, Sender.bot, apologyText, true, none⟩],
        s.inputMessage, false, s.isListening, s.isSpeaking, s.voiceOutputEnabled⟩,
       [], [])

/-- Observable outcome of one `handleSendMessage` invocation: the final
component state, the network requests issued (message texts posted to
`/chat`), the synthesis engine commands, and the `speakResponse` call
arguments. -/
structure SendOutcome where
  state : ChatState
  requests : List String
  synthCmds : List SynthCmd
  speakCalls : List String
  deriving Repr, DecidableEq

/-- Handler `handleSendMessage(message)` of the voice-enabled `ChatPage`
(`message` defaults to `inputMessage` at the call sites; the default is
made explicit here).  `ts` is the `Date.now()` reading captured once at
the top of the accepted call; `api` is the outcome of the awaited
`chatAPI.sendMessage` request. -/
def handleSendMessage (s : ChatState) (message : String) (ts : Nat)
    (api : ApiResult) : SendOutcome :=
  if jsTrim message = "" ∨ s.isLoading then
    ⟨s, [], [], []⟩
  else
    let s1 := sendBegin s message ts
    let r := sendResolve s1 ts api
    ⟨r.1, [jsTrim message], r.2.1, r.2.2⟩

/-- Submission `submit()` with the composed buffer as argument (the
`handleSendMessage()` call sites with no argument). -/
def submit (s : ChatState) (ts : Nat) (api : ApiResult) : SendOutcome :=
  handleSendMessage s s.inputMessage ts api

/-- Number of user messages in a log. -/
def userCount (s : ChatState) : Nat :=
  (s.messages.filter (fun m => m.sender = Sender.user)).length

/-- One entry of a recognition `result` event (`event.results[i][0]`
transcript plus the `isFinal` flag of `event.results[i]`). -/
structure SpeechResult where
  transcript : String
  isFinal : Bool
  deriving Repr, DecidableEq

/-- A recognition `result` event: the cumulative results array of the
session plus `event.resultIndex`, the index of the first result changed
by this event. -/
structure ResultEvent where
  resultIndex : Nat
  results : List SpeechResult
  deriving Repr, DecidableEq

/-- Events emitted by the platform speech recognition engine
(`onstart`, `onresult`, `onerror(event.error)`, `onend`). -/
inductive RecEvent
  | started
  | result (e : ResultEvent)
  | error (code : String)
  | ended
  deriving Repr, DecidableEq

/-- The `finalTranscript` accumulator of the `onresult` handler:
concatenation, in array order, of `event.results[i][0].transcript` over
`i` from `event.resultIndex` with `event.results[i].isFinal`. -/
def finalTranscriptOf (e : ResultEvent) : String :=
  ((e.results.drop e.resultIndex).filter (fun r => r.isFinal)).foldl
    (fun acc r => acc ++ r.transcript) ""

/-- The recognition event handlers registered by the voice-enabled
`ChatPage`: `onstart` sets `isListening`; `onresult` overwrites the
composed buffer with `finalTranscript` when it is nonempty and touches
nothing otherwise; `onerror` and `onend` clear `isListening`. -/
def processRecEvent (s : ChatState) : RecEvent → ChatState
  | RecEvent.started => { s with isListening := true }
  | RecEvent.result e =>
      if finalTranscriptOf e = "" then s
      else { s with inputMessage := finalTranscriptOf e }
  | RecEvent.error _ => { s with isListening := false }
  | RecEvent.ended => { s with isListening := false }

/-- Processing of an engine event sequence in delivery order. -/
def processRecEvents (s : ChatState) (evts : List RecEvent) : ChatState :=
  evts.foldl processRecEvent s

/-- Handler `toggleVoiceInput()`: no-op without an engine; requests `stop()` when
listening; otherwise clears the composed buffer and requests `start()`. -/
def toggleVoiceInput (s : ChatState) (hasRecognition : Bool) :
    ChatState × List RecCmd :=
  if ¬ hasRecognition then (s, [])
  else if s.isListening then (s, [RecCmd.stop])
  else ({ s with inputMessage := "" }, [RecCmd.start])

/-- Handler `toggleVoiceOutput()`: when speech is in flight it cancels the engine
and clears `isSpeaking` in the same synchronous step; in every case it
then flips `voiceOutputEnabled`. -/
def toggleVoiceOutput (s : ChatState) : ChatState × List SynthCmd :=
  if s.isSpeaking then
    ({ s with isSpeaking := false, voiceOutputEnabled := !s.voiceOutputEnabled },
     [SynthCmd.cancel])
  else
    ({ s with voiceOutputEnabled := !s.voiceOutputEnabled }, [])

/-- The platform synthesis engine holds at most one utterance; `cancel`
empties the slot, `speak` replaces it.  Only the utterance occupying the
slot can later deliver its `ended` event. -/
def applySynthCmds (slot : Option String) (cmds : List SynthCmd) : Option String :=
  cmds.foldl
    (fun _cur c =>
      match c with
      | SynthCmd.cancel => none
      | SynthCmd.speak t => some t)
    slot

/-- The initial greeting message of the voice-enabled `ChatPage`
(`useState([{ id: 1, type: 'bot', content: ..., timestamp: ... }])`). -/
def greetingMessage : Message :=
  ⟨1, Sender.bot,
   "🚀 Hey! I'm your personal AI Copilot! I know your profile and can help you with:\n\n• Your personalized earnings predictions\n• Best times and locations for you\n• Weather-aware recommendations for your area\n• Multi-platform optimization (rides + eats)\n• City-specific insights for your home base\n\nWhat would you like to know about maximizing your earnings today?",
   false, none⟩

/-- The component state right after mount: greeting in the log, empty
buffer, nothing loading, listening or speaking, voice output enabled. -/
def initialChatState : ChatState :=
  ⟨[greetingMessage], "", false, false, false, true⟩

/-- One user-initiated send in a session: the message text handed to
`handleSendMessage`, the `Date.now()` reading at its acceptance, and the
network outcome it awaits. -/
structure SendReq where
  msg : String
  ts : Nat
  api : ApiResult
  deriving Repr, DecidableEq

/-- A session of consecutive completed sends (each one resolves before
the next is issued, per the send gate). -/
def runSends (s : ChatState) : List SendReq → ChatState
  | [] => s
  | r :: rest => runSends (handleSendMessage s r.msg r.ts r.api).state rest

/-- The message ids of a log in insertion order. -/
def idsOf (s : ChatState) : List Nat :=
  s.messages.map (fun m => m.id)

/-- Local state of the `VoiceInput` component (the variant of the
recognition wrapper that classifies engine errors). -/
structure VoiceInputState where
  isListening : Bool
  transcript : String
  deriving Repr, DecidableEq

/-- The user-facing message computed by the `switch (event.error)` of
`VoiceInput`'s `onerror` handler: three literal cases and a default that
embeds the engine error code itself. -/
def voiceErrorMessage (code : String) : String :=
  if code = "no-speech" then "No speech detected. Please try again."
  else if code = "audio-capture" then "No microphone found. Please check your device."
  else if code = "not-allowed" then "Microphone permission denied. Please enable it in browser settings."
  else "Speech recognition error: " ++ code

/-- Handler `onerror` of `VoiceInput`: clears `isListening` and reports
the mapped message through the `onError` callback. -/
def voiceInputOnError (s : VoiceInputState) (code : String) :
    VoiceInputState × String :=
  ({ s with isListening := false }, voiceErrorMessage code)

/-- Handler `toggleListening()` of `VoiceInput`: stop (clearing `isListening`
synchronously) when listening, otherwise clear the transcript and request
`start()`. -/
def voiceInputToggle (s : VoiceInputState) (hasRecognition : Bool) :
    VoiceInputState × List RecCmd :=
  if ¬ hasRecognition then (s, [])
  else if s.isListening then ({ s with isListening := false }, [RecCmd.stop])
  else ({ s with transcript := "" }, [RecCmd.start])

/-- Modelled from the spec (§7 capture-error taxonomy): the five-way
classification {no-speech, device-unavailable, permission-denied,
network, other} the spec asserts for recognition engine error codes; the
source `onerror` handler has no separate network case, so this spec-side
classifier exists only to be compared with `voiceErrorMessage`. -/
inductive CaptureErrorClass
  | noSpeech
  | deviceUnavailable
  | permissionDenied
  | network
  | other
  deriving Repr, DecidableEq

/-- Modelled from the spec (§7): the classification of engine error
codes into `CaptureErrorClass`, with the engine error-code vocabulary of
§6 (`no-speech`, `audio-capture`, `not-allowed`, `network`). -/
def classifyCaptureError (code : String) : CaptureErrorClass :=
  if code = "no-speech" then CaptureErrorClass.noSpeech
  else if code = "audio-capture" then CaptureErrorClass.deviceUnavailable
  else if code = "not-allowed" then CaptureErrorClass.permissionDenied
  else if code = "network" then CaptureErrorClass.network
  else CaptureErrorClass.other

/-- Modelled from the spec (§3, §4.1): the transient recognition buffers
`interimText` (overwritten on every update) and `pendingFinalText`
(finalized segments appended in arrival order). -/
structure SpecRecBuffers where
  interimText : String
  pendingFinalText : String
  deriving Repr, DecidableEq

/-- The interim counterpart of `finalTranscriptOf`: concatenation of the
non-final transcripts a result event carries from its `resultIndex`. -/
def interimTranscriptOf (e : ResultEvent) : String :=
  ((e.results.drop e.resultIndex).filter (fun r => ¬ r.isFinal)).foldl
    (fun acc r => acc ++ r.transcript) ""

/-- Modelled from the spec (§4.1): every partial-recognition event
overwrites `interimText`; every finalized-segment event appends to
`pendingFinalText`. -/
def specRecStep (b : SpecRecBuffers) : RecEvent → SpecRecBuffers
  | RecEvent.result e =>
      ⟨interimTranscriptOf e, b.pendingFinalText ++ finalTranscriptOf e⟩
  | _ => b

/-- Modelled from the spec (§4.1): at the engine's end event the session
commits `pendingFinalText`, or, if that is empty, `interimText`. -/
def specRecCommit (evts : List RecEvent) : String :=
  let b := evts.foldl specRecStep ⟨"", ""⟩
  if b.pendingFinalText = "" then b.interimText else b.pendingFinalText

/-- What the source code actually leaves in the composed buffer: the
nonempty `finalTranscript` of the last result event that had one, kept
across later final-free events; `acc` threads the candidate. -/
def lastFinalCommit (acc : Option String) : List RecEvent → Option String
  | [] => acc
  | RecEvent.result e :: rest =>
      lastFinalCommit
        (if finalTranscriptOf e = "" then acc else some (finalTranscriptOf e)) rest
  | _ :: rest => lastFinalCommit acc rest

/-- C1: `submit()` with an empty or whitespace-only composed buffer, or
while a dispatch is awaiting its response, is a silent no-op — no
message appended, no request issued, state unchanged; and a second
`submit()` issued while the first is in flight is such a no-op, so two
rapid submits produce exactly one request and one new user message. -/
theorem submit_gate_single_flight (s : ChatState) (m : String) (ts : Nat)
    (api : ApiResult) (m2 : String) (ts2 : Nat) (api2 : ApiResult) :
    ((jsTrim m = "" ∨ s.isLoading = true) →
        handleSendMessage s m ts api = ⟨s, [], [], []⟩)
    ∧ (s.isLoading = false → jsTrim m ≠ "" →
        handleSendMessage (sendBegin s m ts) m2 ts2 api2 =
          ⟨sendBegin s m ts, [], [], []⟩
        ∧ (handleSendMessage s m ts api).requests = [jsTrim m]
        ∧ userCount (handleSendMessage s m ts api).state = userCount s + 1) := by
  constructor
  · intro h
    rcases h with h | h <;> simp [handleSendMessage, h]
  · intro h1 h2
    refine ⟨?_, ?_, ?_⟩
    · simp [handleSendMessage, sendBegin]
    · simp [handleSendMessage, h1, h2]
    · cases api <;>
        simp [handleSendMessage, h1, h2, sendBegin, sendResolve, userCount,
          mkUserMessage, List.filter_append]

/-- Witness for C1 at concrete inputs: a whitespace-only submit is a
no-op, and a second submit racing a pending one is a no-op. -/
theorem submit_gate_single_flight_witness :
    handleSendMessage initialChatState "  " 5 ApiResult.err =
      ⟨initialChatState, [], [], []⟩
    ∧ handleSendMessage (sendBegin initialChatState "hi" 5) "yo" 6 ApiResult.err =
        ⟨sendBegin initialChatState "hi" 5, [], [], []⟩
    ∧ (handleSendMessage initialChatState "hi" 5 ApiResult.err).requests = ["hi"]
    ∧ userCount (handleSendMessage initialChatState "hi" 5 ApiResult.err).state =
        userCount initialChatState + 1 := by
  have h1 :=
    (submit_gate_single_flight initialChatState "  " 5 ApiResult.err "" 0
      ApiResult.err).1 (Or.inl (by decide))
  have h2 :=
    (submit_gate_single_flight initialChatState "hi" 5 ApiResult.err "yo" 6
      ApiResult.err).2 rfl (by decide)
  exact ⟨h1, h2.1, h2.2.1, h2.2.2⟩

/-- C2: a failed dispatch appends exactly the optimistic user message
followed by one error-flagged assistant message carrying the fixed
apology, clears `isLoading`, and a subsequent nonempty submit is
accepted (issues its request). -/
theorem dispatch_failure_absorbed (s : ChatState) (m : String) (ts : Nat)
    (h1 : s.isLoading = false) (h2 : jsTrim m ≠ "") :
    (handleSendMessage s m ts ApiResult.err).state.messages =
      s.messages ++ [mkUserMessage (jsTrim m) ts,
        ⟨ts + 1, Sender.bot, apologyText, true, none⟩]
    ∧ (handleSendMessage s m ts ApiResult.err).state.isLoading = false
    ∧ ∀ m2 ts2 api2, jsTrim m2 ≠ "" →
        (handleSendMessage (handleSendMessage s m ts ApiResult.err).state
            m2 ts2 api2).requests = [jsTrim m2] := by
  refine ⟨?_, ?_, ?_⟩
  · simp [handleSendMessage, h1, h2, sendBegin, sendResolve]
  · simp [handleSendMessage, h1, h2, sendBegin, sendResolve]
  · intro m2 ts2 api2 hm2
    have hload : (handleSendMessage s m ts ApiResult.err).state.isLoading = false := by
      simp [handleSendMessage, h1, h2, sendBegin, sendResolve]
    obtain ⟨s2, hs2⟩ : ∃ s2, (handleSendMessage s m ts ApiResult.err).state = s2 :=
      ⟨_, rfl⟩
    rw [hs2] at hload ⊢
    simp [handleSendMessage, hload, hm2]

/-- Witness for C2: a concrete failed send. -/
theorem dispatch_failure_absorbed_witness :
    (handleSendMessage initialChatState "hi" 5 ApiResult.err).state.messages =
      initialChatState.messages ++ [mkUserMessage "hi" 5,
        ⟨6, Sender.bot, apologyText, true, none⟩]
    ∧ (handleSendMessage (handleSendMessage initialChatState "hi" 5
          ApiResult.err).state "again" 9 ApiResult.err).requests = ["again"] := by
  have h := dispatch_failure_absorbed initialChatState "hi" 5 rfl (by decide)
  exact ⟨h.1, h.2.2 "again" 9 ApiResult.err (by decide)⟩

/-- C3: on a successful dispatch with voice output enabled,
`speakResponse` is invoked with exactly the appended assistant message
content and the engine receives its (sanitized) utterance; on a failed
dispatch the error reply is never spoken; with voice output disabled no
utterance is started. -/
theorem speak_after_reply (s : ChatState) (m : String) (ts : Nat)
    (resp : String) (ins : Option String)
    (h1 : s.isLoading = false) (h2 : jsTrim m ≠ "") :
    (s.voiceOutputEnabled = true →
        (handleSendMessage s m ts (ApiResult.ok resp ins)).speakCalls = [resp]
        ∧ (handleSendMessage s m ts (ApiResult.ok resp ins)).state.messages =
            s.messages ++ [mkUserMessage (jsTrim m) ts,
              ⟨ts + 1, Sender.bot, resp, false, ins⟩]
        ∧ SynthCmd.speak (cleanText resp) ∈
            (handleSendMessage s m ts (ApiResult.ok resp ins)).synthCmds)
    ∧ ((handleSendMessage s m ts ApiResult.err).speakCalls = []
        ∧ (handleSendMessage s m ts ApiResult.err).synthCmds = [])
    ∧ (s.voiceOutputEnabled = false →
        ∀ t, SynthCmd.speak t ∉
          (handleSendMessage s m ts (ApiResult.ok resp ins)).synthCmds) := by
  refine ⟨?_, ?_, ?_⟩
  · intro hv
    refine ⟨?_, ?_, ?_⟩ <;>
      simp [handleSendMessage, h1, h2, sendBegin, sendResolve, speakResponse, hv]
  · constructor <;> simp [handleSendMessage, h1, h2, sendBegin, sendResolve]
  · intro hv t
    simp [handleSendMessage, h1, h2, sendBegin, sendResolve, speakResponse, hv]

/-- Witness for C3: a concrete successful dispatch is spoken, a concrete
failed one is not. -/
theorem speak_after_reply_witness :
    (handleSendMessage initialChatState "hi" 5
        (ApiResult.ok "Go online now" none)).speakCalls = ["Go online now"]
    ∧ (handleSendMessage initialChatState "hi" 5 ApiResult.err).speakCalls = [] := by
  have h := speak_after_reply initialChatState "hi" 5 "Go online now" none rfl
    (by decide)
  exact ⟨(h.1 rfl).1, h.2.1.1⟩

/-- C4: two `speakResponse` calls in a row hand the engine exactly the
four commands cancel, speak(a), cancel, speak(b) — exactly one cancel
strictly between the two utterances — and leave only the second
utterance in the engine's single slot, so only its `ended` event can be
observed. -/
theorem speak_single_flight (s : ChatState) (a b : String) (slot : Option String)
    (h : s.voiceOutputEnabled = true) :
    speakResponse s a ++ speakResponse s b =
      [SynthCmd.cancel, SynthCmd.speak (cleanText a),
       SynthCmd.cancel, SynthCmd.speak (cleanText b)]
    ∧ applySynthCmds slot (speakResponse s a ++ speakResponse s b) =
        some (cleanText b) := by
  constructor
  · simp [speakResponse, h]
  · simp [speakResponse, h, applySynthCmds]

/-- Witness for C4 at concrete utterances. -/
theorem speak_single_flight_witness :
    speakResponse initialChatState "alpha" ++ speakResponse initialChatState "beta" =
      [SynthCmd.cancel, SynthCmd.speak (cleanText "alpha"),
       SynthCmd.cancel, SynthCmd.speak (cleanText "beta")]
    ∧ applySynthCmds (some "alpha")
        (speakResponse initialChatState "alpha" ++ speakResponse initialChatState "beta") =
        some (cleanText "beta") :=
  speak_single_flight initialChatState "alpha" "beta" (some "alpha") rfl

/-- Unfolding lemma for `lastFinalCommit` on the empty trace. -/
theorem lastFinalCommit_nil (acc : Option String) :
    lastFinalCommit acc [] = acc := rfl

/-- Unfolding lemma for `lastFinalCommit` on a result event. -/
theorem lastFinalCommit_result (acc : Option String) (e : ResultEvent)
    (rest : List RecEvent) :
    lastFinalCommit acc (RecEvent.result e :: rest) =
      lastFinalCommit
        (if finalTranscriptOf e = "" then acc else some (finalTranscriptOf e))
        rest := rfl

/-- Unfolding lemma for `lastFinalCommit` on a start event. -/
theorem lastFinalCommit_started (acc : Option String) (rest : List RecEvent) :
    lastFinalCommit acc (RecEvent.started :: rest) = lastFinalCommit acc rest := rfl

/-- Unfolding lemma for `lastFinalCommit` on an error event. -/
theorem lastFinalCommit_error (acc : Option String) (c : String)
    (rest : List RecEvent) :
    lastFinalCommit acc (RecEvent.error c :: rest) = lastFinalCommit acc rest := rfl

/-- Unfolding lemma for `lastFinalCommit` on an end event. -/
theorem lastFinalCommit_ended (acc : Option String) (rest : List RecEvent) :
    lastFinalCommit acc (RecEvent.ended :: rest) = lastFinalCommit acc rest := rfl

/-- Threading an accumulator through `lastFinalCommit` only matters when
no result event carries a final transcript. -/
theorem lastFinalCommit_shift (acc : Option String) (evts : List RecEvent) :
    lastFinalCommit acc evts = (lastFinalCommit none evts).elim acc some := by
  induction evts generalizing acc with
  | nil => rfl
  | cons e rest ih =>
    cases e with
    | result ev =>
      by_cases hf : finalTranscriptOf ev = ""
      · simp only [lastFinalCommit_result, if_pos hf]
        exact ih acc
      · simp only [lastFinalCommit_result, if_neg hf]
        rw [ih (some (finalTranscriptOf ev))]
        cases lastFinalCommit none rest <;> simp
    | started =>
      simp only [lastFinalCommit_started]
      exact ih acc
    | error c =>
      simp only [lastFinalCommit_error]
      exact ih acc
    | ended =>
      simp only [lastFinalCommit_ended]
      exact ih acc

/-- The composed buffer after an engine event sequence is the last
nonempty final transcript delivered, the prior buffer if none arrived. -/
theorem processRecEvents_inputMessage (s : ChatState) (evts : List RecEvent) :
    (processRecEvents s evts).inputMessage =
      (lastFinalCommit none evts).getD s.inputMessage := by
  induction evts generalizing s with
  | nil => rfl
  | cons e rest ih =>
    cases e with
    | result ev =>
      by_cases hf : finalTranscriptOf ev = ""
      · have hstep : processRecEvents s (RecEvent.result ev :: rest) =
            processRecEvents s rest := by
          simp [processRecEvents, processRecEvent, hf]
        rw [hstep, ih, lastFinalCommit_result, if_pos hf]
      · have hstep : processRecEvents s (RecEvent.result ev :: rest) =
            processRecEvents { s with inputMessage := finalTranscriptOf ev } rest := by
          simp [processRecEvents, processRecEvent, hf]
        rw [hstep, ih, lastFinalCommit_result, if_neg hf,
          lastFinalCommit_shift (some (finalTranscriptOf ev)) rest]
        cases lastFinalCommit none rest <;> simp
    | started =>
      have hstep : processRecEvents s (RecEvent.started :: rest) =
          processRecEvents { s with isListening := true } rest := by
        simp [processRecEvents, processRecEvent]
      rw [hstep, ih, lastFinalCommit_started]
    | error c =>
      have hstep : processRecEvents s (RecEvent.error c :: rest) =
          processRecEvents { s with isListening := false } rest := by
        simp [processRecEvents, processRecEvent]
      rw [hstep, ih, lastFinalCommit_error]
    | ended =>
      have hstep : processRecEvents s (RecEvent.ended :: rest) =
          processRecEvents { s with isListening := false } rest := by
        simp [processRecEvents, processRecEvent]
      rw [hstep, ih, lastFinalCommit_ended]

/-- Counterexample to C5 as stated: after a lone interim result and the
engine end event, the code leaves the composed buffer empty, while the
specified commit rule (fall back to `interimText` when
`pendingFinalText` is empty) would commit the interim text. -/
theorem commit_drops_lone_interim_cex :
    (processRecEvents { initialChatState with isListening := true }
        [RecEvent.result ⟨0, [⟨"hello", false⟩]⟩, RecEvent.ended]).inputMessage = ""
    ∧ specRecCommit [RecEvent.result ⟨0, [⟨"hello", false⟩]⟩, RecEvent.ended] = "hello"
    ∧ (processRecEvents { initialChatState with isListening := true }
        [RecEvent.result ⟨0, [⟨"hello", false⟩]⟩, RecEvent.ended]).inputMessage ≠
      specRecCommit [RecEvent.result ⟨0, [⟨"hello", false⟩]⟩, RecEvent.ended] := by
  refine ⟨rfl, rfl, ?_⟩
  decide

/-- C5 (amended): the committed buffer is the nonempty final transcript
of the last result event that carried one (per-event concatenation from
`resultIndex`), and keeps its prior value — never interim text — when no
finalized segment arrived; on the round-trip scenario three interims
followed by one final commit exactly the final transcript. -/
theorem commit_is_last_final_transcript (s : ChatState) (evts : List RecEvent) :
    (processRecEvents s evts).inputMessage =
      (lastFinalCommit none evts).getD s.inputMessage
    ∧ (processRecEvents { initialChatState with isListening := true }
        [RecEvent.result ⟨0, [⟨"how", false⟩]⟩,
         RecEvent.result ⟨0, [⟨"how much", false⟩]⟩,
         RecEvent.result ⟨0, [⟨"how much have I", false⟩]⟩,
         RecEvent.result ⟨0, [⟨"how much have I earned", true⟩]⟩,
         RecEvent.ended]).inputMessage = "how much have I earned" :=
  ⟨processRecEvents_inputMessage s evts, rfl⟩

/-- C6: after any event sequence ending in the engine's `ended` or
`error` event the session no longer reports `Listening`, and a stop
toggle while listening requests the engine to end capture. -/
theorem recognition_terminal_idle (s : ChatState) (evts : List RecEvent)
    (c : String) :
    (processRecEvents s (evts ++ [RecEvent.ended])).isListening = false
    ∧ (processRecEvents s (evts ++ [RecEvent.error c])).isListening = false
    ∧ (s.isListening = true → (toggleVoiceInput s true).2 = [RecCmd.stop]) := by
  refine ⟨?_, ?_, ?_⟩
  · simp [processRecEvents, List.foldl_append, processRecEvent]
  · simp [processRecEvents, List.foldl_append, processRecEvent]
  · intro h
    simp [toggleVoiceInput, h]

/-- Witness for C6 on a concrete event trace. -/
theorem recognition_terminal_idle_witness :
    (processRecEvents { initialChatState with isListening := true }
        [RecEvent.started, RecEvent.ended]).isListening = false
    ∧ (toggleVoiceInput { initialChatState with isListening := true } true).2 =
        [RecCmd.stop] := by
  have h := recognition_terminal_idle { initialChatState with isListening := true }
    [RecEvent.started] "network"
  exact ⟨h.1, h.2.2 rfl⟩

/-- Counterexample to C7 as stated: two sends whose `Date.now()` readings
fall in the same millisecond (a nondecreasing clock the code permits)
produce the id sequence 1, 1000, 1001, 1000, 1001 — neither pairwise
distinct nor strictly increasing. -/
theorem message_ids_collide_cex :
    idsOf (runSends initialChatState
        [⟨"hi", 1000, ApiResult.err⟩, ⟨"yo", 1000, ApiResult.err⟩]) =
      [1, 1000, 1001, 1000, 1001]
    ∧ ¬ ((idsOf (runSends initialChatState
            [⟨"hi", 1000, ApiResult.err⟩, ⟨"yo", 1000, ApiResult.err⟩])).Nodup
        ∧ List.Chain' (· < ·) (idsOf (runSends initialChatState
            [⟨"hi", 1000, ApiResult.err⟩, ⟨"yo", 1000, ApiResult.err⟩]))) := by
  have h : idsOf (runSends initialChatState
      [⟨"hi", 1000, ApiResult.err⟩, ⟨"yo", 1000, ApiResult.err⟩]) =
      [1, 1000, 1001, 1000, 1001] := rfl
  refine ⟨h, ?_⟩
  rintro ⟨hn, -⟩
  rw [h] at hn
  exact (by decide : ¬ ([1, 1000, 1001, 1000, 1001] : List Nat).Nodup) hn

/-- Clock-spacing condition for a session of sends: each accepted send
has a nonempty trimmed text and a `Date.now()` reading strictly above
every id already assigned (so at least two above the previous reading). -/
def clockSpaced : Nat → List SendReq → Bool
  | _, [] => true
  | lo, r :: rest =>
      (decide (lo < r.ts) && decide (jsTrim r.msg ≠ "")) &&
        clockSpaced (r.ts + 1) rest

/-- An accepted send appends exactly the ids `ts` and `ts + 1` and
leaves the dispatcher idle. -/
theorem idsOf_handleSendMessage (s : ChatState) (m : String) (ts : Nat)
    (api : ApiResult) (h1 : s.isLoading = false) (h2 : jsTrim m ≠ "") :
    idsOf (handleSendMessage s m ts api).state = idsOf s ++ [ts, ts + 1]
    ∧ (handleSendMessage s m ts api).state.isLoading = false := by
  cases api <;>
    simp [handleSendMessage, h1, h2, sendBegin, sendResolve, idsOf, mkUserMessage]

/-- Appending two larger elements to a strictly increasing list keeps it
strictly increasing. -/
theorem chain_lt_append_pair {l : List Nat} {a b : Nat}
    (hc : List.Chain' (· < ·) l) (hl : ∀ i ∈ l, i < a) (hab : a < b) :
    List.Chain' (· < ·) (l ++ [a, b]) := by
  rw [List.chain'_append]
  refine ⟨hc, ?_, ?_⟩
  · simp [List.chain'_cons, hab]
  · intro x hx y hy
    simp only [List.head?_cons, Option.mem_def, Option.some.injEq] at hy
    rcases List.mem_getLast?_eq_getLast hx with ⟨hne, hxl⟩
    subst hxl
    rw [← hy]
    exact hl _ (List.getLast_mem hne)

/-- Under the clock-spacing condition every send keeps the id list
strictly increasing. -/
theorem runSends_ids_chain (sends : List SendReq) :
    ∀ (s : ChatState) (lo : Nat), s.isLoading = false →
      List.Chain' (· < ·) (idsOf s) →
      (∀ i ∈ idsOf s, i ≤ lo) →
      clockSpaced lo sends = true →
      List.Chain' (· < ·) (idsOf (runSends s sends)) := by
  induction sends with
  | nil =>
    intro s lo h1 hc _ _
    exact hc
  | cons r rest ih =>
    intro s lo h1 hc hb hsp
    simp only [clockSpaced, Bool.and_eq_true, decide_eq_true_eq] at hsp
    obtain ⟨⟨hlo, hmsg⟩, hrest⟩ := hsp
    have hids := idsOf_handleSendMessage s r.msg r.ts r.api h1 hmsg
    have hchain2 : List.Chain' (· < ·)
        (idsOf (handleSendMessage s r.msg r.ts r.api).state) := by
      rw [hids.1]
      exact chain_lt_append_pair hc
        (fun i hi => lt_of_le_of_lt (hb i hi) hlo) (Nat.lt_succ_self _)
    have hb2 : ∀ i ∈ idsOf (handleSendMessage s r.msg r.ts r.api).state,
        i ≤ r.ts + 1 := by
      rw [hids.1]
      intro i hi
      rcases List.mem_append.mp hi with hi | hi
      · exact le_trans (le_trans (hb i hi) (le_of_lt hlo)) (Nat.le_succ _)
      · simp only [List.mem_cons, List.not_mem_nil, or_false] at hi
        rcases hi with hi | hi
        · exact hi ▸ Nat.le_succ _
        · exact hi ▸ le_refl _
    exact ih _ (r.ts + 1) hids.2 hchain2 hb2 hrest

/-- C7 (amended): starting from the initial log (greeting id 1), message
ids are strictly increasing — hence pairwise distinct — across any
session of sends, succeeding or failing, provided each send's
`Date.now()` reading exceeds every id already assigned (i.e. successive
sends land at least two milliseconds apart). -/
theorem message_ids_strictly_increasing (sends : List SendReq)
    (h : clockSpaced 1 sends = true) :
    List.Chain' (· < ·) (idsOf (runSends initialChatState sends))
    ∧ (idsOf (runSends initialChatState sends)).Nodup := by
  have hc := runSends_ids_chain sends initialChatState 1 rfl
    (by simp [idsOf, initialChatState, greetingMessage])
    (by simp [idsOf, initialChatState, greetingMessage]) h
  refine ⟨hc, ?_⟩
  have hp : List.Pairwise (· < ·) (idsOf (runSends initialChatState sends)) :=
    List.chain'_iff_pairwise.mp hc
  exact hp.imp (fun hlt => Nat.ne_of_lt hlt)

/-- Witness for the amended C7 on a concrete two-send session. -/
theorem message_ids_strictly_increasing_witness :
    List.Chain' (· < ·) (idsOf (runSends initialChatState
        [⟨"hi", 10, ApiResult.err⟩, ⟨"yo", 20, ApiResult.ok "k" none⟩]))
    ∧ (idsOf (runSends initialChatState
        [⟨"hi", 10, ApiResult.err⟩, ⟨"yo", 20, ApiResult.ok "k" none⟩])).Nodup :=
  message_ids_strictly_increasing
    [⟨"hi", 10, ApiResult.err⟩, ⟨"yo", 20, ApiResult.ok "k" none⟩] rfl

/-- C8: disabling voice output while speech is in flight cancels the
engine and reaches `Idle` in the same synchronous step; the toggle never
starts an utterance in either direction; re-enabling only flips the flag
read by future `speakResponse` calls. -/
theorem output_toggle_cancels (s : ChatState) :
    (s.isSpeaking = true → s.voiceOutputEnabled = true →
        (toggleVoiceOutput s).2 = [SynthCmd.cancel]
        ∧ (toggleVoiceOutput s).1.isSpeaking = false
        ∧ (toggleVoiceOutput s).1.voiceOutputEnabled = false)
    ∧ (∀ t, SynthCmd.speak t ∉ (toggleVoiceOutput s).2)
    ∧ (s.voiceOutputEnabled = false →
        (toggleVoiceOutput s).1.voiceOutputEnabled = true) := by
  refine ⟨?_, ?_, ?_⟩
  · intro h1 h2
    simp [toggleVoiceOutput, h1, h2]
  · intro t
    by_cases h : s.isSpeaking <;> simp [toggleVoiceOutput, h]
  · intro h
    by_cases h2 : s.isSpeaking <;> simp [toggleVoiceOutput, h, h2]

/-- Witness for C8: toggling while speaking with output enabled. -/
theorem output_toggle_cancels_witness :
    (toggleVoiceOutput { initialChatState with isSpeaking := true }).2 =
      [SynthCmd.cancel]
    ∧ (toggleVoiceOutput { initialChatState with isSpeaking := true }).1.isSpeaking =
        false := by
  have h := (output_toggle_cancels { initialChatState with isSpeaking := true }).1
    rfl rfl
  exact ⟨h.1, h.2.1⟩

/-- Counterexample to C9 as stated: the handler has no five-way
classification with one fixed message per class — two codes outside the
three literal cases (both in the claimed "other" class) yield different
user-facing messages, because the default branch embeds the code. -/
theorem capture_error_no_fixed_class_message :
    classifyCaptureError "aborted" = CaptureErrorClass.other
    ∧ classifyCaptureError "bad-grammar" = CaptureErrorClass.other
    ∧ voiceErrorMessage "aborted" ≠ voiceErrorMessage "bad-grammar"
    ∧ ¬ ∃ fixedMsg : CaptureErrorClass → String,
        ∀ code, voiceErrorMessage code = fixedMsg (classifyCaptureError code) := by
  refine ⟨rfl, rfl, by decide, ?_⟩
  rintro ⟨f, hf⟩
  have ha := hf "aborted"
  have hb := hf "bad-grammar"
  rw [show classifyCaptureError "aborted" = CaptureErrorClass.other from rfl] at ha
  rw [show classifyCaptureError "bad-grammar" = CaptureErrorClass.other from rfl] at hb
  have hab : voiceErrorMessage "aborted" = voiceErrorMessage "bad-grammar" := by
    rw [ha, hb]
  exact absurd hab (by decide)

/-- C9 (amended): the `onerror` handler maps the codes `no-speech`,
`audio-capture` and `not-allowed` each to its own fixed message and every
other code — `network` included — to a message embedding the code
itself; in every case the session leaves `Listening` and the next toggle
starts capture again. -/
theorem capture_error_mapping (s : VoiceInputState) (code : String) :
    voiceErrorMessage "no-speech" = "No speech detected. Please try again."
    ∧ voiceErrorMessage "audio-capture" = "No microphone found. Please check your device."
    ∧ voiceErrorMessage "not-allowed" = "Microphone permission denied. Please enable it in browser settings."
    ∧ (code ≠ "no-speech" → code ≠ "audio-capture" → code ≠ "not-allowed" →
        voiceErrorMessage code = "Speech recognition error: " ++ code)
    ∧ (voiceInputOnError s code).1.isListening = false
    ∧ (voiceInputOnError s code).2 = voiceErrorMessage code
    ∧ (voiceInputToggle (voiceInputOnError s code).1 true).2 = [RecCmd.start] := by
  refine ⟨rfl, rfl, rfl, ?_, rfl, rfl, ?_⟩
  · intro h1 h2 h3
    simp [voiceErrorMessage, h1, h2, h3]
  · simp [voiceInputToggle, voiceInputOnError]

/-- Witness for the amended C9 at the `network` code. -/
theorem capture_error_mapping_witness :
    voiceErrorMessage "network" = "Speech recognition error: network"
    ∧ (voiceInputOnError ⟨true, "t"⟩ "network").1.isListening = false := by
  have h := capture_error_mapping ⟨true, "t"⟩ "network"
  exact ⟨h.2.2.2.1 (by decide) (by decide) (by decide), h.2.2.2.2.1⟩

/-- C10: starting voice input with the engine available while not
listening clears the composed buffer — any unsent draft is discarded —
before capture is requested; without an engine the toggle does nothing. -/
theorem voice_start_discards_draft (s : ChatState) (h : s.isListening = false) :
    (toggleVoiceInput s true).1.inputMessage = ""
    ∧ (toggleVoiceInput s true).2 = [RecCmd.start]
    ∧ (toggleVoiceInput s true).1.messages = s.messages
    ∧ toggleVoiceInput s false = (s, []) := by
  refine ⟨?_, ?_, ?_, ?_⟩ <;> simp [toggleVoiceInput, h]

/-- Witness for C10: a typed draft is erased when listening starts. -/
theorem voice_start_discards_draft_witness :
    (toggleVoiceInput { initialChatState with inputMessage := "draft" } true).1.inputMessage = ""
    ∧ (toggleVoiceInput { initialChatState with inputMessage := "draft" } true).2 =
        [RecCmd.start] := by
  have h := voice_start_discards_draft
    { initialChatState with inputMessage := "draft" } rfl
  exact ⟨h.1, h.2.1⟩

end UberCopilot






